import Mathlib

/-!
Verification development for the SST composition tool's hierarchy
resolution engine (`src/app/hierarchyresolver.py`, `src/app/componentnode.py`).

The Python code is shallowly embedded: Python dicts of the hierarchy tree
become association lists over a mutual inductive type, fallible code returns
`Except`, the unbounded ascent loops take an explicit fuel argument, and the
resolver's mutable `__hierarchy_links` accumulator is modelled by emitting the
list of links produced by a pass (nothing in the source reads the accumulator
during a pass, so appending to mutable state and concatenating an emitted list
coincide).
-/

namespace SSTComp

/-- One entry of a `ComponentNode.links` list: the Python dict
`{"from_port": str, "to_node_type": int, "to_port": str}`. -/
structure PyLink where
  from_port : String
  to_node_type : Int
  to_port : String
deriving DecidableEq

/-- Embedding of `ComponentNode` (componentnode.py).  Optional string fields
default to `None` in Python and are modelled with `Option`; `links = None` is
modelled as the empty list (the resolver only iterates the list).  `id` is the
process-unique identity token `id(self)`. -/
structure ComponentNode where
  class_name : Option String := none
  type : Int := 0
  name : Option String := none
  parent : Option String := none
  links : List PyLink := []
  params : Option String := none
  id : Nat
deriving DecidableEq

mutual
/-- The hierarchy tree `dict<ComponentNode, list<dict<ComponentNode, list...>>>`:
a `Tree` is one Python dict (an insertion-ordered association list from nodes
to their children), each child being itself a single-level dict. -/
inductive Tree : Type where
  | mk : Entries → Tree

/-- The entries of one dict level, in insertion order. -/
inductive Entries : Type where
  | nil : Entries
  | cons : ComponentNode → Children → Entries → Entries

/-- A `list<dict ...>` of child subtrees. -/
inductive Children : Type where
  | nil : Children
  | cons : Tree → Children → Children
end

/-- The entries of a dict level as a Lean list. -/
def Entries.toList : Entries → List (ComponentNode × Children)
  | .nil => []
  | .cons k v rest => (k, v) :: rest.toList

/-- A children list as a Lean list of subtrees. -/
def Children.toList : Children → List Tree
  | .nil => []
  | .cons t ts => t :: ts.toList

/-- The entries of a subtree's top-level dict. -/
def Tree.entriesList : Tree → List (ComponentNode × Children)
  | .mk es => es.toList

/-- Python truthiness of a children list (`if not value`). -/
def Children.isEmpty : Children → Bool
  | .nil => true
  | .cons _ _ => false

/-- `next(iter(k))` on a child dict: its first key, absent for an empty dict
(where Python raises StopIteration). -/
def Tree.headNode : Tree → Option ComponentNode
  | .mk .nil => none
  | .mk (.cons k _ _) => some k

/-- The attribute name passed to `__find_node_by_attr`: `"type"` or `"id"`. -/
inductive Attr : Type where
  | type : Attr
  | ident : Attr
deriving DecidableEq

/-- `getattr(key, attr)` for the two attribute names the resolver uses. -/
def attrVal (n : ComponentNode) : Attr → Int
  | .type => n.type
  | .ident => (n.id : Int)

/-- Python exceptions that can escape the resolver, plus fuel exhaustion for
the unbounded `while` ascents. -/
inductive Err : Type where
  | attrError : Err
  | typeError : Err
  | stopIter : Err
  | valueError : Err
  | keyError : Err
  | fuelOut : Err
deriving DecidableEq

mutual
/-- `HierarchyResolver.__find_node_by_attr(subtree, attr, data)`: depth-first
pre-order search; returns the first matching node together with the dict level
it is a key of, `none` when the method falls through returning Python `None`. -/
def find_node_by_attr (attr : Attr) (d : Int) (t : Tree) : Option (ComponentNode × Tree) :=
  match t with
  | .mk es => find_node_by_attr_entries attr d t es

/-- The `for key, value in subtree.items()` loop of `__find_node_by_attr`;
`orig` is the dict being iterated, returned alongside a key found at this level. -/
def find_node_by_attr_entries (attr : Attr) (d : Int) (orig : Tree) (es : Entries) :
    Option (ComponentNode × Tree) :=
  match es with
  | .nil => none
  | .cons k v rest =>
    if attrVal k attr = d then some (k, orig)
    else
      match find_node_by_attr_children attr d v with
      | some r => some r
      | none => find_node_by_attr_entries attr d orig rest

/-- The `for node in value` loop of `__find_node_by_attr`: recurse into each
child dict in order, first hit wins. -/
def find_node_by_attr_children (attr : Attr) (d : Int) (cs : Children) :
    Option (ComponentNode × Tree) :=
  match cs with
  | .nil => none
  | .cons t ts =>
    match find_node_by_attr attr d t with
    | some r => some r
    | none => find_node_by_attr_children attr d ts
end

/-- The dict lookup `subtree[node]`: keys hash by `id` and distinct live nodes
have distinct ids, so lookup is by identity token. -/
def lookupEntries (nid : Nat) : Entries → Option Children
  | .nil => none
  | .cons k v rest => if k.id = nid then some v else lookupEntries nid rest

/-- `subtree[node]` on a tree level. -/
def Tree.lookupChildren (t : Tree) (n : ComponentNode) : Option Children :=
  match t with
  | .mk es => lookupEntries n.id es

mutual
/-- `HierarchyResolver.__get_parent(node, subtree)` searching a whole subtree;
`.ok none` models the implicit Python `None` (no parent found), `.error`
models StopIteration from `next(iter(k))` on an empty child dict. -/
def get_parent_in (nid : Nat) (t : Tree) : Except Err (Option ComponentNode) :=
  match t with
  | .mk es => get_parent_entries nid es

/-- The `for key, value in subtree.items()` loop of `__get_parent`. -/
def get_parent_entries (nid : Nat) (es : Entries) : Except Err (Option ComponentNode) :=
  match es with
  | .nil => .ok none
  | .cons key v rest =>
    match get_parent_children nid key v with
    | .error e => .error e
    | .ok (some p) => .ok (some p)
    | .ok none => get_parent_entries nid rest

/-- The `for k in value` loop of `__get_parent`: compare `node.id` with the
first key of each child dict, else recurse into that child dict. -/
def get_parent_children (nid : Nat) (key : ComponentNode) (cs : Children) :
    Except Err (Option ComponentNode) :=
  match cs with
  | .nil => .ok none
  | .cons k ks =>
    match k.headNode with
    | none => .error .stopIter
    | some h =>
      if nid = h.id then .ok (some key)
      else
        match get_parent_in nid k with
        | .error e => .error e
        | .ok (some p) => .ok (some p)
        | .ok none => get_parent_children nid key ks
end

/-- `HierarchyResolver.get_parent(node)`: `__get_parent` over the whole tree. -/
def get_parent (t : Tree) (n : ComponentNode) : Except Err (Option ComponentNode) :=
  get_parent_in n.id t

/-- The `while parent.type:` loop of `get_path_to_root`: ascend and collect
types until a parent of type `0`; `fuel` bounds the otherwise unbounded loop,
and a parentless node makes the `parent.type` access raise (AttributeError). -/
def pathLoop (t : Tree) (fuel : Nat) (p : ComponentNode) (acc : List Int) :
    Except Err (List Int) :=
  if p.type = 0 then .ok acc
  else
    match fuel with
    | 0 => .error .fuelOut
    | f + 1 =>
      match get_parent t p with
      | .error e => .error e
      | .ok none => .error .attrError
      | .ok (some p2) => pathLoop t f p2 (acc ++ [p2.type])

/-- `HierarchyResolver.get_path_to_root(node, node_types_list)`: append the
node's own type, then its parent's, then ascend while the parent type is
truthy (non-zero).  Appending to the passed-in mutable list is modelled by
returning the extended list. -/
def get_path_to_root (fuel : Nat) (t : Tree) (node : ComponentNode) (acc : List Int) :
    Except Err (List Int) :=
  match get_parent t node with
  | .error e => .error e
  | .ok none => .error .attrError
  | .ok (some p) => pathLoop t fuel p (acc ++ [node.type] ++ [p.type])

/-- The `while node_types_list:` descent loop of `__resolve_port`, on the
reversed list: `node_types_list.pop()` takes elements from the list's end, so
popping until exhaustion is recursion over the reversal.  At each step the
node of the popped type is searched in the current scope, the scope becomes
the dict level the node was found in, and the node is returned as soon as its
children list is empty; an exhausted list falls through to Python `None`. -/
def resolvePortRev (stRev : List Int) (st : Tree) : Except Err (Option ComponentNode) :=
  match stRev with
  | [] => .ok none
  | k :: rest =>
    match find_node_by_attr .type k st with
    | none => .error .typeError
    | some (n, st2) =>
      match st2.lookupChildren n with
      | none => .error .keyError
      | some cs =>
        if cs.isEmpty then .ok (some n)
        else resolvePortRev rest st2

/-- `HierarchyResolver.__resolve_port(node_types_list, subtree)`. -/
def resolve_port (path : List Int) (st : Tree) : Except Err (Option ComponentNode) :=
  resolvePortRev path.reverse st

/-- Digits of a decimal literal, `none` when empty or non-digit characters
occur.  Together with `parseIntSeg` this models Python `int(str)` on the plain
literals the connection strings contain (whitespace padding and digit-group
underscores are not modelled). -/
def parseDigits (cs : List Char) : Option Nat :=
  match cs with
  | [] => none
  | _ =>
    if cs.all Char.isDigit then
      some (cs.foldl (fun a c => a * 10 + (c.toNat - 48)) 0)
    else none

/-- Python `int(s)` for a path segment of a connection string. -/
def parseIntSeg (s : String) : Option Int :=
  match s.toList with
  | '-' :: rest => (parseDigits rest).map (fun n => -(n : Int))
  | '+' :: rest => (parseDigits rest).map (fun n => (n : Int))
  | cs => (parseDigits cs).map (fun n => (n : Int))

/-- Python `connection.split("#")`: split on every occurrence of the node
delimiter, keeping empty segments, never returning an empty list. -/
def splitHashAux (cs : List Char) (acc : List Char) : List String :=
  match cs with
  | [] => [String.mk acc.reverse]
  | c :: rest =>
    if c = '#' then String.mk acc.reverse :: splitHashAux rest []
    else splitHashAux rest (c :: acc)

/-- `connection.split("#")` on a string. -/
def splitHash (s : String) : List String :=
  splitHashAux s.toList []

/-- `[int(i) for i in connection_list[1:]]`: all-or-nothing parse of the path
segments, `none` when some segment makes `int` raise ValueError. -/
def parseSegs : List String → Option (List Int)
  | [] => some []
  | s :: rest =>
    match parseIntSeg s, parseSegs rest with
    | some k, some ks => some (k :: ks)
    | _, _ => none

/-- `HierarchyResolver.parse_connection(connection)`: the first segment is the
port name, the remaining segments are parsed as integers. -/
def parse_connection (conn : String) : Except Err (String × List Int) :=
  match splitHash conn with
  | [] => .error .valueError
  | name :: rest =>
    match parseSegs rest with
    | none => .error .valueError
    | some ks => .ok (name, ks)

/-- `get_parent(current_parent)` followed by
`find(tree, "id", current_parent.id)`: one ascent step of
`get_sibling_subtree`, failing on a parentless node (`None.id`) and on an
unpackable `None` find result. -/
def siblingStep (t : Tree) (cp : ComponentNode) : Except Err (ComponentNode × Tree) :=
  match get_parent t cp with
  | .error e => .error e
  | .ok none => .error .attrError
  | .ok (some p) =>
    match find_node_by_attr .ident (p.id : Int) t with
    | none => .error .typeError
    | some r => .ok r

/-- The `while not sibling_node:` loop of `get_sibling_subtree`: search the
current scope for a node of the target type, widening to the parent's scope
until found; returns the dict level containing the found node. -/
def siblingLoop (t : Tree) (k : Int) (fuel : Nat) (cp : ComponentNode) (st : Tree) :
    Except Err Tree :=
  match find_node_by_attr .type k st with
  | some (_, lvl) => .ok lvl
  | none =>
    match fuel with
    | 0 => .error .fuelOut
    | f + 1 =>
      match siblingStep t cp with
      | .error e => .error e
      | .ok (cp2, st2) => siblingLoop t k f cp2 st2

/-- `HierarchyResolver.get_sibling_subtree(node, sibling_node_type)`. -/
def get_sibling_subtree (fuel : Nat) (t : Tree) (node : ComponentNode) (k : Int) :
    Except Err Tree :=
  match find_node_by_attr .ident (node.id : Int) t with
  | none => .error .typeError
  | some (cur, _) =>
    match siblingStep t cur with
    | .error e => .error e
    | .ok (cp, st) => siblingLoop t k fuel cp st

/-- `HierarchyResolver.resolve_from_port(node, connection)`: an empty parsed
path means the endpoint is the node itself; otherwise ascend to the root and
descend the combined type list from the whole tree. -/
def resolve_from_port (fuel : Nat) (t : Tree) (node : ComponentNode) (conn : String) :
    Except Err (Option ComponentNode × String) :=
  match parse_connection conn with
  | .error e => .error e
  | .ok (name, ks) =>
    if ks = [] then .ok (some node, name)
    else
      match get_path_to_root fuel t node ks with
      | .error e => .error e
      | .ok path =>
        match resolve_port path t with
        | .error e => .error e
        | .ok r => .ok (r, name)

/-- `HierarchyResolver.resolve_to_port(node, to_node_type, connection)`:
locate the sibling scope containing the destination type, then either return
the type match directly (empty path) or descend the parsed path from that
scope (`None[0]` on a failed direct match raises). -/
def resolve_to_port (fuel : Nat) (t : Tree) (node : ComponentNode) (toType : Int)
    (conn : String) : Except Err (Option ComponentNode × String) :=
  match get_sibling_subtree fuel t node toType with
  | .error e => .error e
  | .ok st =>
    match parse_connection conn with
    | .error e => .error e
    | .ok (name, ks) =>
      if ks = [] then
        match find_node_by_attr .type toType st with
        | none => .error .typeError
        | some (n, _) => .ok (some n, name)
      else
        match resolve_port ks st with
        | .error e => .error e
        | .ok r => .ok (r, name)

/-- One resolved SST link `(from_node, from_port, to_node, to_port)` as
appended to `__hierarchy_links`; the node slots hold whatever
`resolve_from_port`/`resolve_to_port` return, including Python `None`. -/
abbrev RLink := Option ComponentNode × String × Option ComponentNode × String

/-- The `for link in k.links:` loop of `__resolve_hierarchy`: resolve both
endpoints of each declared link in order, emitting the appended tuples; a
raised error aborts the loop, keeping the links emitted so far. -/
def rhLinks (fuel : Nat) (t : Tree) (k : ComponentNode) :
    List PyLink → Option Err × List RLink
  | [] => (none, [])
  | l :: rest =>
    match resolve_from_port fuel t k l.from_port with
    | .error e => (some e, [])
    | .ok (fn, fp) =>
      match resolve_to_port fuel t k l.to_node_type l.to_port with
      | .error e => (some e, [])
      | .ok (tn, tp) =>
        match rhLinks fuel t k rest with
        | (e, ls) => (e, (fn, fp, tn, tp) :: ls)

mutual
/-- `HierarchyResolver.__resolve_hierarchy(subtree)`: emit the links resolved
during the pass over a subtree, paired with the exception aborting the pass,
if any. -/
def rhTree (fuel : Nat) (t : Tree) (sub : Tree) : Option Err × List RLink :=
  match sub with
  | .mk es => rhEntries fuel t es

/-- The `for value in subtree.values():` loop: an entry with an empty children
list returns from the whole method at once. -/
def rhEntries (fuel : Nat) (t : Tree) (es : Entries) : Option Err × List RLink :=
  match es with
  | .nil => (none, [])
  | .cons _ v rest =>
    if v.isEmpty then (none, [])
    else
      match rhChildren fuel t v with
      | (some e, ls) => (some e, ls)
      | (none, ls) =>
        match rhEntries fuel t rest with
        | (e, ls2) => (e, ls ++ ls2)

/-- The `for node in value:` loop: take each child dict's first key, resolve
its declared links, then recurse into the child dict. -/
def rhChildren (fuel : Nat) (t : Tree) (cs : Children) : Option Err × List RLink :=
  match cs with
  | .nil => (none, [])
  | .cons child restCs =>
    match child.headNode with
    | none => (some .stopIter, [])
    | some k =>
      match rhLinks fuel t k k.links with
      | (some e, ls) => (some e, ls)
      | (none, ls) =>
        match rhTree fuel t child with
        | (some e, ls2) => (some e, ls ++ ls2)
        | (none, ls2) =>
          match rhChildren fuel t restCs with
          | (e, ls3) => (e, ls ++ ls2 ++ ls3)
end

/-- The `HierarchyResolver` object state: the tree handed to the constructor
and the mutable `__hierarchy_links` accumulator. -/
structure HierarchyResolver where
  tree : Tree
  hierarchy_links : List RLink

/-- `HierarchyResolver.resolve_hierarchy()`: run `__resolve_hierarchy` on the
stored tree, appending the produced links to the accumulator; the first
component is the exception escaping the call, if any (the accumulator keeps
links appended before the exception). -/
def resolve_hierarchy (fuel : Nat) (r : HierarchyResolver) :
    Option Err × HierarchyResolver :=
  ((rhTree fuel r.tree r.tree).1,
    { tree := r.tree,
      hierarchy_links := r.hierarchy_links ++ (rhTree fuel r.tree r.tree).2 })

/-- `HierarchyResolver.get_links()`. -/
def get_links (r : HierarchyResolver) : List RLink :=
  r.hierarchy_links

/-- The root sentinel `Home` of the concrete scenario of the spec: type `0`,
no declared links. -/
def homeN : ComponentNode :=
  { class_name := some "Home", type := 0, name := some "Home", id := 100 }

/-- `X` of the concrete scenario: type `1`, name `"Adder#0"`, declaring the
single link `{from_port: "out#2", to_node_type: 2, to_port: "in"}`. -/
def xN : ComponentNode :=
  { class_name := some "Adder", type := 1, name := some "Adder#0",
    parent := some "Home", links := [⟨"out#2", 2, "in"⟩], id := 101 }

/-- `Y` of the concrete scenario: type `2`, name `"Adder#1"`, a leaf with no
declared links. -/
def yN : ComponentNode :=
  { class_name := some "Adder", type := 2, name := some "Adder#1",
    parent := some "Adder#0", id := 102 }

/-- The dict `{Y: []}`. -/
def yDict : Tree := .mk (.cons yN .nil .nil)

/-- The dict `{X: [{Y: []}]}`. -/
def xDict : Tree := .mk (.cons xN (.cons yDict .nil) .nil)

/-- The tree of the concrete scenario: `{Home: [{X: [{Y: []}]}]}`. -/
def c1tree : Tree := .mk (.cons homeN (.cons xDict .nil) .nil)

/-- Builds the three-level tree `{h: [{x: [{y: []}]}]}` used by the concrete
scenarios. -/
def chainTree (h x y : ComponentNode) : Tree :=
  .mk (.cons h (.cons (.mk (.cons x (.cons (.mk (.cons y .nil .nil)) .nil) .nil)) .nil) .nil)

/-- Variant of `X` whose link targets the nonexistent node type `77`. -/
def x77N : ComponentNode :=
  { class_name := some "Adder", type := 1, name := some "Adder#0",
    parent := some "Home", links := [⟨"out#2", 77, "in"⟩], id := 111 }

/-- Tree whose only link's destination type `77` exists nowhere, so the
sibling-scope ascent exhausts the root. -/
def c4tree : Tree := chainTree homeN x77N yN

/-- Variant of `X` whose `from_port` path `#1` re-targets `X`'s own type, so
the descent's type list runs out while the current node still has children. -/
def x10N : ComponentNode :=
  { class_name := some "Adder", type := 1, name := some "Adder#0",
    parent := some "Home", links := [⟨"out#1", 2, "in"⟩], id := 121 }

/-- Tree exercising the exhausted-type-list descent of `__resolve_port`. -/
def c10tree : Tree := chainTree homeN x10N yN

/-- The state after the first `resolve_hierarchy()` call on the concrete
scenario's resolver. -/
def c5run1 : Option Err × HierarchyResolver :=
  resolve_hierarchy 5 { tree := c1tree, hierarchy_links := [] }

/-- The state after a second `resolve_hierarchy()` call on the same
unmodified tree. -/
def c5run2 : Option Err × HierarchyResolver :=
  resolve_hierarchy 5 c5run1.2

/-- The kinds of values a `ComponentNode` is compared against in
`ComponentNode.__eq__`: another node, a string, an integer, or anything
else. -/
inductive PyVal : Type where
  | node : ComponentNode → PyVal
  | str : String → PyVal
  | int : Int → PyVal
  | other : PyVal

/-- `ComponentNode.__eq__(self, other)`: class-name comparison against nodes
and strings, identity comparison against integers, TypeError otherwise. -/
def componentNodeEq (self : ComponentNode) : PyVal → Except Err Bool
  | .node o => .ok (decide (self.class_name = o.class_name))
  | .str s => .ok (decide (self.class_name = some s))
  | .int i => .ok (decide ((self.id : Int) = i))
  | .other => .error .typeError

/-- Python `hash` of a non-negative machine integer. -/
def pyIntHash (n : Nat) : Nat := n % (2 ^ 61 - 1)

/-- `ComponentNode.__hash__(self)`: the hash of the identity token only. -/
def componentNodeHash (n : ComponentNode) : Nat := pyIntHash n.id

mutual
/-- The nodes of a subtree in the visit order of `__find_node_by_attr`:
each dict key before the contents of its child dicts, entries and children in
insertion order. -/
def preorderT : Tree → List ComponentNode
  | .mk es => preorderE es

/-- Pre-order nodes of a dict's entries. -/
def preorderE : Entries → List ComponentNode
  | .nil => []
  | .cons k v rest => k :: (preorderC v ++ preorderE rest)

/-- Pre-order nodes of a children list. -/
def preorderC : Children → List ComponentNode
  | .nil => []
  | .cons t ts => preorderT t ++ preorderC ts
end

/-- `LevelIn st t`: the dict `st` is a sibling-level mapping occurring in the
tree `t` — `t` itself, or recursively a child dict of some entry. -/
inductive LevelIn : Tree → Tree → Prop where
  | refl (t : Tree) : LevelIn t t
  | child {st t c : Tree} {k : ComponentNode} {cs : Children}
      (hkv : (k, cs) ∈ t.entriesList) (hc : c ∈ cs.toList)
      (h : LevelIn st c) : LevelIn st t

/-- `AscentFrom t p ps`: starting the `while parent.type:` loop of
`get_path_to_root` at `p`, the successive `get_parent` steps visit exactly
the nodes of `ps`, stopping at the sentinel type `0`.  This is the tree
well-formedness the spec demands: every non-root node ascends through
parents, with type `0` only at the sentinel. -/
inductive AscentFrom (t : Tree) : ComponentNode → List ComponentNode → Prop where
  | done {p : ComponentNode} (h0 : p.type = 0) : AscentFrom t p []
  | step {p p2 : ComponentNode} {ps : List ComponentNode}
      (hne : p.type ≠ 0) (hpar : get_parent t p = .ok (some p2))
      (h : AscentFrom t p2 ps) : AscentFrom t p (p2 :: ps)

/-- A list comprehension over `int` fails as soon as one element fails. -/
theorem parseSegs_eq_none_of_mem (s : String) (rest : List String)
    (hs : s ∈ rest) (hbad : parseIntSeg s = none) : parseSegs rest = none := by
  induction rest with
  | nil => cases hs
  | cons a as ih =>
    rcases List.mem_cons.mp hs with h | h
    · subst h
      simp [parseSegs, hbad]
    · simp only [parseSegs]
      rw [ih h]
      cases parseIntSeg a <;> rfl

/-- The `while parent.type:` loop follows an ascent chain exactly, collecting
the visited types. -/
theorem pathLoop_ascent (t : Tree) (p : ComponentNode) (ps : List ComponentNode)
    (fuel : Nat) (acc : List Int) (h : AscentFrom t p ps) (hf : ps.length ≤ fuel) :
    pathLoop t fuel p acc = .ok (acc ++ ps.map (fun q => q.type)) := by
  induction h generalizing fuel acc with
  | done h0 => rw [pathLoop.eq_def]; simp [h0]
  | @step p p2 ps hne hpar _ ih =>
    cases fuel with
    | zero => simp at hf
    | succ f =>
      rw [pathLoop.eq_def]
      simp only [hne, if_false, hpar]
      rw [ih f (acc ++ [p2.type]) (by simpa using hf)]
      simp

/-- An ascent chain ends at the sentinel type `0`. -/
theorem ascent_last_type (t : Tree) (p : ComponentNode) (ps : List ComponentNode)
    (h : AscentFrom t p ps) : ((p :: ps).map (fun q => q.type)).getLast? = some 0 := by
  induction h with
  | done h0 => simp [h0]
  | @step p p2 ps _ _ _ ih => simpa using ih

mutual
/-- `__find_node_by_attr` returns (as first component) exactly the first
node of the pre-order traversal whose attribute matches. -/
theorem find_pre_tree (attr : Attr) (d : Int) (t : Tree) :
    (find_node_by_attr attr d t).map Prod.fst =
      (preorderT t).find? (fun m => decide (attrVal m attr = d)) :=
  match t with
  | .mk es => by
    simpa only [find_node_by_attr, preorderT] using
      find_pre_entries attr d (Tree.mk es) es

/-- Entry-loop case of `find_pre_tree`. -/
theorem find_pre_entries (attr : Attr) (d : Int) (orig : Tree) (es : Entries) :
    (find_node_by_attr_entries attr d orig es).map Prod.fst =
      (preorderE es).find? (fun m => decide (attrVal m attr = d)) :=
  match es with
  | .nil => rfl
  | .cons k v rest => by
    have hc := find_pre_children attr d v
    have he := find_pre_entries attr d orig rest
    simp only [find_node_by_attr_entries, preorderE]
    by_cases h : attrVal k attr = d
    · rw [if_pos h, List.find?_cons_of_pos _ (by simpa using h)]
      rfl
    · rw [if_neg h, List.find?_cons_of_neg _ (by simpa using h),
        List.find?_append, ← hc, ← he]
      cases find_node_by_attr_children attr d v <;> simp

/-- Child-loop case of `find_pre_tree`. -/
theorem find_pre_children (attr : Attr) (d : Int) (cs : Children) :
    (find_node_by_attr_children attr d cs).map Prod.fst =
      (preorderC cs).find? (fun m => decide (attrVal m attr = d)) :=
  match cs with
  | .nil => rfl
  | .cons t ts => by
    have ht := find_pre_tree attr d t
    have hts := find_pre_children attr d ts
    simp only [find_node_by_attr_children, preorderC]
    rw [List.find?_append, ← ht, ← hts]
    cases find_node_by_attr attr d t <;> simp
end

mutual
/-- A successful `__find_node_by_attr` search returns a node that matches the
attribute together with the dict level it is a key of (not its own children
dict), that level being a sibling-level mapping of the searched subtree. -/
theorem find_level_tree (attr : Attr) (d : Int) (t : Tree) (n : ComponentNode)
    (st : Tree) (h : find_node_by_attr attr d t = some (n, st)) :
    ((∃ cs, (n, cs) ∈ st.entriesList ∧ attrVal n attr = d) ∧ LevelIn st t) :=
  match t with
  | .mk es => by
    exact find_level_entries attr d (Tree.mk es) es n st (fun x hx => hx) h

/-- Entry-loop case of `find_level_tree`; `hsub` records that the iterated
entries are entries of the dict `orig` being searched. -/
theorem find_level_entries (attr : Attr) (d : Int) (orig : Tree) (es : Entries)
    (n : ComponentNode) (st : Tree)
    (hsub : ∀ x, x ∈ es.toList → x ∈ orig.entriesList)
    (h : find_node_by_attr_entries attr d orig es = some (n, st)) :
    ((∃ cs, (n, cs) ∈ st.entriesList ∧ attrVal n attr = d) ∧ LevelIn st orig) :=
  match es with
  | .nil => by simp [find_node_by_attr_entries] at h
  | .cons k v rest => by
    rw [find_node_by_attr_entries] at h
    by_cases hk : attrVal k attr = d
    · rw [if_pos hk] at h
      obtain ⟨hn, hst⟩ : k = n ∧ orig = st := by
        simpa using h
      subst hn; subst hst
      exact ⟨⟨v, hsub (k, v) (by simp [Entries.toList]), hk⟩, .refl orig⟩
    · rw [if_neg hk] at h
      cases hc : find_node_by_attr_children attr d v with
      | some r =>
        rw [hc] at h
        cases r with
        | mk rn rst =>
          obtain ⟨hn, hst⟩ : rn = n ∧ rst = st := by simpa using h
          subst hn; subst hst
          obtain ⟨hattr, c, hcmem, hlvl⟩ :=
            find_level_children attr d v rn rst hc
          exact ⟨hattr,
            .child (hsub (k, v) (by simp [Entries.toList])) hcmem hlvl⟩
      | none =>
        rw [hc] at h
        exact find_level_entries attr d orig rest n st
          (fun x hx => hsub x (by simp [Entries.toList, hx])) h

/-- Child-loop case of `find_level_tree`: the result level lies inside one of
the child dicts. -/
theorem find_level_children (attr : Attr) (d : Int) (cs : Children)
    (n : ComponentNode) (st : Tree)
    (h : find_node_by_attr_children attr d cs = some (n, st)) :
    ((∃ cs2, (n, cs2) ∈ st.entriesList ∧ attrVal n attr = d) ∧
      ∃ c, c ∈ cs.toList ∧ LevelIn st c) :=
  match cs with
  | .nil => by simp [find_node_by_attr_children] at h
  | .cons t ts => by
    rw [find_node_by_attr_children] at h
    cases ht : find_node_by_attr attr d t with
    | some r =>
      rw [ht] at h
      cases r with
      | mk rn rst =>
        obtain ⟨hn, hst⟩ : rn = n ∧ rst = st := by simpa using h
        subst hn; subst hst
        obtain ⟨hattr, hlvl⟩ := find_level_tree attr d t rn rst ht
        exact ⟨hattr, t, by simp [Children.toList], hlvl⟩
    | none =>
      rw [ht] at h
      obtain ⟨hattr, c, hcmem, hlvl⟩ := find_level_children attr d ts n st h
      exact ⟨hattr, c, by simp [Children.toList, hcmem], hlvl⟩
end

/-- C2: for a non-root node of a well-formed tree — one with a parent and a
successive-parent chain through `get_parent` whose types are non-zero until
the type-`0` sentinel — `get_path_to_root(n, [])` returns the node's type
followed by the chain's types in leaf-to-root order, ending with the
sentinel's type `0`. -/
theorem c2_path_to_root (fuel : Nat) (t : Tree) (n p : ComponentNode)
    (ps : List ComponentNode) (hp : get_parent t n = .ok (some p))
    (ha : AscentFrom t p ps) (hf : ps.length ≤ fuel) :
    get_path_to_root fuel t n [] = .ok ((n :: p :: ps).map (fun q => q.type)) ∧
    ((n :: p :: ps).map (fun q => q.type)).getLast? = some 0 := by
  constructor
  · simp only [get_path_to_root, hp]
    rw [pathLoop_ascent t p ps fuel ([] ++ [n.type] ++ [p.type]) ha hf]
    simp
  · have h2 := ascent_last_type t p ps ha
    simp only [List.map_cons] at h2 ⊢
    rw [List.getLast?_cons_cons]
    exact h2

/-- C2 witness: the leaf `Y` of the concrete tree has root path `[2, 1, 0]`,
ending at the sentinel type. -/
theorem c2_path_to_root_witness :
    get_path_to_root 5 c1tree yN [] =
      .ok (([yN, xN, homeN]).map (fun q => q.type)) ∧
    (([yN, xN, homeN]).map (fun q => q.type)).getLast? = some 0 :=
  c2_path_to_root 5 c1tree yN xN [homeN] rfl
    (.step (by decide) rfl (.done rfl)) (by decide)

/-- C7: `__find_node_by_attr` returns the first node in depth-first pre-order
(entries in insertion order, each node before its children) whose attribute
equals the value, paired with the sibling-level mapping containing that node
as a key (not the node's own children); the result is a function of the tree,
with ties broken by traversal order (`List.find?` takes the first match). -/
theorem c7_find_first_preorder (attr : Attr) (d : Int) (t : Tree) :
    ((find_node_by_attr attr d t).map Prod.fst =
      (preorderT t).find? (fun m => decide (attrVal m attr = d))) ∧
    (∀ (n : ComponentNode) (st : Tree),
      find_node_by_attr attr d t = some (n, st) →
      ((∃ cs, (n, cs) ∈ st.entriesList ∧ attrVal n attr = d) ∧ LevelIn st t)) :=
  ⟨find_pre_tree attr d t, fun n st h => find_level_tree attr d t n st h⟩

/-- C7 witness: searching the concrete tree for type `2` finds `Y` first in
pre-order, keyed in the level `{Y: []}`, which is a level of the tree. -/
theorem c7_find_first_preorder_witness :
    (∃ cs, (yN, cs) ∈ yDict.entriesList ∧ attrVal yN .type = 2) ∧
    LevelIn yDict c1tree :=
  (c7_find_first_preorder .type 2 c1tree).2 yN yDict rfl

/-- C1: on the concrete tree `Home → X("Adder#0") → Y("Adder#1")` with `X`
declaring `{from_port: "out#2", to_node_type: 2, to_port: "in"}`, the claim
that `resolve_hierarchy` followed by `get_links` yields the single link
`(X, "out", Y, "in")` is false: the descent's stop-at-leaf rule lands the
from-endpoint on `Y`, not `X`. -/
theorem c1_concrete_scenario_counterexample :
    get_links (resolve_hierarchy 5 { tree := c1tree, hierarchy_links := [] }).2 ≠
      [(some xN, "out", some yN, "in")] := by decide

/-- C1 (amended): on the concrete scenario tree, `resolve_hierarchy` followed
by `get_links` yields exactly one resolved link, namely `(Y, "out", Y, "in")`
— the from-endpoint is the leaf `Y` reached by descending the `#2` path, and
no exception is raised. -/
theorem c1_concrete_scenario_amended :
    (resolve_hierarchy 5 { tree := c1tree, hierarchy_links := [] }).1 = none ∧
    get_links (resolve_hierarchy 5 { tree := c1tree, hierarchy_links := [] }).2 =
      [(some yN, "out", some yN, "in")] := ⟨rfl, rfl⟩

/-- C3: whenever a step of the `__resolve_port` descent finds a node whose
children list is empty, the node is returned as resolved endpoint no matter
how many unconsumed path elements remain, and no error is raised. -/
theorem c3_leaf_truncation (rest : List Int) (k : Int) (t st : Tree)
    (n : ComponentNode) (hfind : find_node_by_attr .type k t = some (n, st))
    (hleaf : st.lookupChildren n = some .nil) :
    resolve_port (rest ++ [k]) t = .ok (some n) := by
  unfold resolve_port
  rw [List.reverse_append]
  simp [resolvePortRev, hfind, hleaf, Children.isEmpty]

/-- C3 witness: descending for type `2` in the concrete tree with two further
unconsumed path elements still resolves to the leaf `Y`. -/
theorem c3_leaf_truncation_witness :
    resolve_port ([99, 42] ++ [2]) c1tree = .ok (some yN) :=
  c3_leaf_truncation [99, 42] 2 c1tree yDict yN rfl rfl

/-- C4: the claim that a failure carrying the search context (node,
attribute, value) is propagated is false of the code: lookups exhausting the
root from distinct search contexts — different starting nodes (`x77N`, `yN`)
and different searched-for values (`77`, `88`) — all propagate one and the
same context-free error value (the bare AttributeError from `None.id`), so
the propagated failure determines no search context; and `get_parent`
applied to the root sentinel propagates no failure at all, returning Python
`None` to its caller. -/
theorem c4_structural_lookup_failure_counterexample :
    get_parent c4tree homeN = .ok none ∧
    get_sibling_subtree 5 c4tree x77N 77 = .error .attrError ∧
    get_sibling_subtree 5 c4tree x77N 88 = .error .attrError ∧
    get_sibling_subtree 5 c4tree yN 77 = .error .attrError :=
  ⟨rfl, rfl, rfl, rfl⟩

/-- C4 (amended): a sibling-scope ascent that exhausts the root raises a
failure without any attached search context (modelled by the nullary
`Err.attrError`, Python's bare AttributeError), propagated unchanged through
`resolve_to_port`; `get_parent` of the root sentinel raises nothing and
returns no parent, the failure surfacing as the same bare AttributeError
only when a caller such as `get_path_to_root` uses the result; in either
case the failure is not recoverable locally, and concretely a link whose
destination type exists nowhere aborts the whole resolution pass with no
resolved link produced. -/
theorem c4_structural_lookup_failure :
    (∀ (fuel : Nat) (t : Tree) (n : ComponentNode) (k : Int) (conn : String)
        (e : Err), get_sibling_subtree fuel t n k = .error e →
        resolve_to_port fuel t n k conn = .error e) ∧
    (∀ (fuel : Nat) (t : Tree) (n : ComponentNode) (acc : List Int),
        get_parent t n = .ok none →
        get_path_to_root fuel t n acc = .error .attrError) ∧
    get_parent c1tree homeN = .ok none ∧
    get_sibling_subtree 5 c4tree x77N 77 = .error .attrError ∧
    resolve_hierarchy 5 { tree := c4tree, hierarchy_links := [] } =
      (some .attrError, { tree := c4tree, hierarchy_links := [] }) := by
  refine ⟨?_, ?_, rfl, rfl, rfl⟩
  · intro fuel t n k conn e h
    simp [resolve_to_port, h]
  · intro fuel t n acc h
    simp [get_path_to_root, h]

/-- C4 witness: resolving the to-endpoint of the link targeting the
nonexistent type `77` surfaces the ascent's failure. -/
theorem c4_structural_lookup_failure_witness :
    resolve_to_port 5 c4tree x77N 77 "in" = .error .attrError :=
  c4_structural_lookup_failure.1 5 c4tree x77N 77 "in" .attrError rfl

/-- C5: the claim that a second `resolve_hierarchy` run on the unmodified
tree leaves `get_links` unchanged is false: the accumulator is never cleared,
so the second run appends a duplicate of every link. -/
theorem c5_idempotence_counterexample :
    get_links c5run2.2 ≠ get_links c5run1.2 := by decide

/-- C5 (amended): a second `resolve_hierarchy` run on the same unmodified
tree appends an identical copy of the first run's links: `get_links` then
returns the first-run sequence concatenated with itself (equal to the
first-run sequence only when it is empty). -/
theorem c5_idempotence_amended (fuel : Nat) (t : Tree) (L : List RLink)
    (h : resolve_hierarchy fuel { tree := t, hierarchy_links := [] } =
      (none, { tree := t, hierarchy_links := L })) :
    resolve_hierarchy fuel { tree := t, hierarchy_links := L } =
      (none, { tree := t, hierarchy_links := L ++ L }) := by
  have h1 : (rhTree fuel t t).1 = none := congrArg Prod.fst h
  have h2 : [] ++ (rhTree fuel t t).2 = L :=
    congrArg (fun p => p.2.hierarchy_links) h
  simp only [List.nil_append] at h2
  simp [resolve_hierarchy, h1, h2]

/-- C5 witness: the duplicate-append behaviour on the concrete scenario
tree. -/
theorem c5_idempotence_amended_witness :
    resolve_hierarchy 5
        { tree := c1tree, hierarchy_links := [(some yN, "out", some yN, "in")] } =
      (none, { tree := c1tree,
                hierarchy_links := [(some yN, "out", some yN, "in")] ++
                  [(some yN, "out", some yN, "in")] }) :=
  c5_idempotence_amended 5 c1tree [(some yN, "out", some yN, "in")] rfl

/-- C6: the claim that an empty port name fails parsing is false: `"#2"`
splits into the empty port name and the path `[2]`, parses successfully, and
resolution of such a link proceeds normally. -/
theorem c6_malformed_counterexample :
    parse_connection "#2" = .ok ("", [2]) ∧
    resolve_from_port 5 c1tree xN "#2" = .ok (some yN, "") := ⟨rfl, rfl⟩

/-- C6 (amended): a connection string with a non-integer path segment
(including an empty segment) fails to parse with ValueError.  For a link so
malformed in its `from_port`, resolution aborts at once and the link list
gains no entry.  For a link so malformed only in its `to_port`, the
sibling-scope lookup for `to_node_type` runs first: when that lookup
succeeds, parsing the `to_port` fails with the ValueError propagated and no
resolved link emitted (a failing lookup instead propagates its own error
before any parse).  An empty port name, by contrast, parses successfully. -/
theorem c6_malformed_amended (conn s name : String) (rest : List String)
    (hsplit : splitHash conn = name :: rest)
    (hs : s ∈ rest) (hbad : parseIntSeg s = none) :
    parse_connection conn = .error .valueError ∧
    (∀ (fuel : Nat) (t : Tree) (n : ComponentNode),
      resolve_from_port fuel t n conn = .error .valueError) ∧
    (∀ (fuel : Nat) (t : Tree) (n : ComponentNode) (toT : Int) (st : Tree),
      get_sibling_subtree fuel t n toT = .ok st →
      resolve_to_port fuel t n toT conn = .error .valueError) ∧
    (∀ (fuel : Nat) (t : Tree) (k : ComponentNode) (toT : Int) (toP : String)
      (tail : List PyLink),
      rhLinks fuel t k (⟨conn, toT, toP⟩ :: tail) = (some .valueError, [])) ∧
    (∀ (fuel : Nat) (t : Tree) (k : ComponentNode) (fromP : String)
      (fn : Option ComponentNode) (fp : String) (toT : Int) (st : Tree)
      (tail : List PyLink),
      resolve_from_port fuel t k fromP = .ok (fn, fp) →
      get_sibling_subtree fuel t k toT = .ok st →
      rhLinks fuel t k (⟨fromP, toT, conn⟩ :: tail) = (some .valueError, [])) := by
  have hp : parse_connection conn = .error .valueError := by
    simp [parse_connection, hsplit, parseSegs_eq_none_of_mem s rest hs hbad]
  refine ⟨hp, ?_, ?_, ?_, ?_⟩
  · intro fuel t n
    simp [resolve_from_port, hp]
  · intro fuel t n toT st hsib
    simp [resolve_to_port, hsib, hp]
  · intro fuel t k toT toP tail
    simp [rhLinks, resolve_from_port, hp]
  · intro fuel t k fromP fn fp toT st tail hfrom hsib
    simp [rhLinks, hfrom, resolve_to_port, hsib, hp]

/-- C6 witness: the `to_port` string `"in#x"` has the non-integer segment
`"x"`; with the sibling lookup for type `2` succeeding on the concrete tree,
`resolve_to_port` fails with the propagated ValueError. -/
theorem c6_malformed_amended_witness :
    resolve_to_port 5 c1tree xN 2 "in#x" = .error .valueError :=
  (c6_malformed_amended "in#x" "x" "in" ["x"] rfl (by simp) rfl).2.2.1
    5 c1tree xN 2 yDict rfl

/-- C8: `ComponentNode` equality is three-moded — against a node it compares
`class_name`, against a string it compares `class_name` to the string,
against an integer it compares the identity token, and anything else raises —
while hashing uses the identity token only, so hashing agrees with
identity-based equality but two class-equal nodes can hash differently. -/
theorem c8_equality_modes :
    (∀ n m : ComponentNode,
      componentNodeEq n (.node m) = .ok true ↔ n.class_name = m.class_name) ∧
    (∀ (n : ComponentNode) (s : String),
      componentNodeEq n (.str s) = .ok true ↔ n.class_name = some s) ∧
    (∀ (n : ComponentNode) (i : Int),
      componentNodeEq n (.int i) = .ok true ↔ (n.id : Int) = i) ∧
    (∀ n : ComponentNode, componentNodeEq n .other = .error .typeError) ∧
    (∀ n m : ComponentNode, n.id = m.id →
      componentNodeHash n = componentNodeHash m) ∧
    (∃ n m : ComponentNode, componentNodeEq n (.node m) = .ok true ∧
      componentNodeHash n ≠ componentNodeHash m) := by
  refine ⟨?_, ?_, ?_, ?_, ?_, ?_⟩
  · intro n m; simp [componentNodeEq]
  · intro n s; simp [componentNodeEq]
  · intro n i; simp [componentNodeEq]
  · intro n; rfl
  · intro n m h; simp [componentNodeHash, h]
  · exact ⟨{ class_name := some "Adder", id := 1 },
      { class_name := some "Adder", id := 2 }, rfl, by decide⟩

/-- C8 witness: two nodes with the same identity token hash identically even
when their class names differ. -/
theorem c8_equality_modes_witness :
    componentNodeHash { class_name := some "A", id := 7 : ComponentNode } =
      componentNodeHash { class_name := some "B", id := 7 : ComponentNode } :=
  c8_equality_modes.2.2.2.2.1
    { class_name := some "A", id := 7 } { class_name := some "B", id := 7 } rfl

/-- C9: a `resolve_hierarchy` pass is read-only over its input: the tree
component of the resolver state (hence the structure and every node's
attributes) is returned unchanged, whatever the tree and prior link state. -/
theorem c9_read_only (fuel : Nat) (r : HierarchyResolver) :
    (resolve_hierarchy fuel r).2.tree = r.tree := rfl

/-- C10: an exhausted type list makes `__resolve_port` fall through to `None`
rather than a node or an error; `resolve_from_port` and `resolve_to_port`
then pair that absent node with the port name, and `__resolve_hierarchy`
appends the absent-endpoint link to the output without raising. -/
theorem c10_exhausted_path_absent_endpoint :
    (∀ st : Tree, resolve_port [] st = .ok none) ∧
    (∀ (fuel : Nat) (t : Tree) (n : ComponentNode) (conn name : String)
        (ks path : List Int),
        parse_connection conn = .ok (name, ks) → ks ≠ [] →
        get_path_to_root fuel t n ks = .ok path →
        resolve_port path t = .ok none →
        resolve_from_port fuel t n conn = .ok (none, name)) ∧
    (∀ (fuel : Nat) (t : Tree) (n : ComponentNode) (toT : Int)
        (conn name : String) (ks : List Int) (st : Tree),
        get_sibling_subtree fuel t n toT = .ok st →
        parse_connection conn = .ok (name, ks) → ks ≠ [] →
        resolve_port ks st = .ok none →
        resolve_to_port fuel t n toT conn = .ok (none, name)) ∧
    resolve_hierarchy 5 { tree := c10tree, hierarchy_links := [] } =
      (none, { tree := c10tree,
                hierarchy_links := [(none, "out", some yN, "in")] }) := by
  refine ⟨fun st => rfl, ?_, ?_, rfl⟩
  · intro fuel t n conn name ks path hp hks hpath hres
    simp [resolve_from_port, hp, hks, hpath, hres]
  · intro fuel t n toT conn name ks st hs hp hks hres
    simp [resolve_to_port, hs, hp, hks, hres]

/-- C10 witness: on the tree whose link path re-targets the module's own
type, the from-endpoint resolves to Python `None` paired with the port
name. -/
theorem c10_exhausted_path_absent_endpoint_witness :
    resolve_from_port 5 c10tree x10N "out#1" = .ok (none, "out") :=
  c10_exhausted_path_absent_endpoint.2.1 5 c10tree x10N "out#1" "out" [1]
    [1, 1, 0] rfl (by decide) rfl rfl

end SSTComp
